import Mathlib

/-!
# Verification of the Sport-Betting-Bot core

Shallow embedding of the repository's core numeric and stateful code:

* `src/betting/paper_trader.py` — the paper-trading ledger (`PaperTrader`):
  bet placement, settlement, payout and CLV arithmetic;
* `src/utils/risk_management.py` — the risk governor (`RiskManager`):
  fractional-Kelly position sizing and drawdown circuit breaker;
* `src/strategies/arbitrage.py` — the cross-book arbitrage detector
  (`ArbitrageStrategy`).

Python floats are modelled as exact rationals (`ℚ`); American odds are
integers (`ℤ`).  A Python statement that can raise (`ZeroDivisionError`)
is modelled with `Option`: `none` marks the raised exception, and the
state returned alongside it reflects exactly the mutations performed
before the raising line.  Logging, timestamps and JSON persistence are
I/O side effects with no influence on the tracked state and are omitted.
-/

namespace SportBettingBot

/-! ## Ledger data model (`src/betting/paper_trader.py`)

A bet record is the dictionary built in `PaperTrader.place_bet`
(lines 91-100); the textual timestamp fields (`timestamp`,
`settled_at`) carry no arithmetic content and are omitted.  The bet id
string `BET-%06d` is injective in the counter, so the id is modelled as
the counter value itself. -/

structure Bet where
  id : Nat
  game_id : String
  sport : String
  bet_type : String
  selection : String
  odds : Int
  stake : ℚ
  strategy : String
  status : String
  result : Option String
  profit : ℚ
  closing_line : Option Int
  clv : Option ℚ
deriving DecidableEq

/-- The argument dictionary of `place_bet`: each required key may be
absent (`none`).  The optional `sportsbook` key is never validated or
used arithmetically and is omitted. -/
structure BetInput where
  game_id : Option String
  sport : Option String
  bet_type : Option String
  selection : Option String
  odds : Option Int
  stake : Option ℚ
  strategy : Option String
deriving DecidableEq

/-- The in-memory state of a `PaperTrader` (constructor, lines 37-41). -/
structure PaperTrader where
  starting_bankroll : ℚ
  bankroll : ℚ
  bets : List Bet
  bet_counter : Nat
deriving DecidableEq

/-- A fresh trader: no saved state file exists, so `load_state` is a
no-op (lines 295-297). -/
def PaperTrader.fresh (s : ℚ) : PaperTrader :=
  { starting_bankroll := s, bankroll := s, bets := [], bet_counter := 0 }

/-- `next((b for b in self.bets if b['id'] == bet_id), None)`
(line 134): the first bet with the given id, if any. -/
def findBet : List Bet → Nat → Option Bet
  | [], _ => none
  | b :: bs, i => if b.id = i then some b else findBet bs i

/-- In-place mutation of the dict found by `findBet`: replace the first
bet with the given id. -/
def updateBet : List Bet → Nat → Bet → List Bet
  | [], _, _ => []
  | b :: bs, i, nb => if b.id = i then nb :: bs else b :: updateBet bs i nb

/-- `PaperTrader._calculate_payout` (lines 355-371).  `none` models the
`ZeroDivisionError` raised by `100 / abs(odds)` when `odds = 0`. -/
def calculate_payout (stake : ℚ) (odds : Int) : Option ℚ :=
  if 0 < odds then some (stake + stake * ((odds : ℚ) / 100))
  else if odds.natAbs = 0 then none
  else some (stake + stake * (100 / (odds.natAbs : ℚ)))

/-- The inner `odds_to_prob` of `PaperTrader._calculate_clv`
(lines 388-392). -/
def odds_to_prob (odds : Int) : ℚ :=
  if 0 < odds then 100 / ((odds : ℚ) + 100)
  else (odds.natAbs : ℚ) / ((odds.natAbs : ℚ) + 100)

/-- `PaperTrader._calculate_clv` (lines 373-400).  `none` models the
`ZeroDivisionError` of `(closing_prob - opening_prob) / opening_prob`
when the opening probability is `0` (entry odds `0`). -/
def calculate_clv (opening_odds closing_odds : Int) : Option ℚ :=
  let opening_prob := odds_to_prob opening_odds
  let closing_prob := odds_to_prob closing_odds
  if opening_prob = 0 then none
  else some (((closing_prob - opening_prob) / opening_prob) * 100)

/-- `PaperTrader.place_bet` (lines 51-115).  Returns the new bet id on
success, `none` on any validation failure, always paired with the
resulting state.  The Python checks the seven required keys one by one
(lines 72-76) and returns `None` at the first missing one; observably
this is `none` with the state untouched whenever any key is absent. -/
def PaperTrader.place_bet (t : PaperTrader) (bet : BetInput) :
    Option Nat × PaperTrader :=
  match bet.game_id, bet.sport, bet.bet_type, bet.selection,
      bet.odds, bet.stake, bet.strategy with
  | some gid, some sp, some bt, some sel, some odds, some stake, some strat =>
    if stake > t.bankroll then (none, t)
    else if stake ≤ 0 then (none, t)
    else
      let counter := t.bet_counter + 1
      let bet_record : Bet :=
        { id := counter, game_id := gid, sport := sp, bet_type := bt,
          selection := sel, odds := odds, stake := stake, strategy := strat,
          status := "pending", result := none, profit := 0,
          closing_line := none, clv := none }
      (some counter,
       { t with bet_counter := counter,
                bankroll := t.bankroll - stake,
                bets := t.bets ++ [bet_record] })
  | _, _, _, _, _, _, _ => (none, t)

/-- Outcome of `settle_bet`: the returned dictionary
(`{bet_id, result, profit, bankroll}`, lines 172-177), the returned
error dictionary (`{'error': msg}`), or an uncaught Python exception. -/
inductive SettleOutcome where
  | ok (bet_id : Nat) (result : String) (profit : ℚ) (bankroll : ℚ)
  | err (msg : String)
  | exn (msg : String)
deriving DecidableEq

/-- Lines 161-164 of `settle_bet`: `if closing_line:` — Python
truthiness, so a supplied closing line of `0` is skipped exactly like
`None`.  Returns the final bet record and `true`, or, when the
`bet['clv']` assignment raises (entry odds `0`), the partially updated
record (closing line set, no CLV) and `false`. -/
def applyClosing (bet1 : Bet) (entry_odds : Int) (closing_line : Option Int) :
    Bet × Bool :=
  match closing_line with
  | some c =>
    if c ≠ 0 then
      match calculate_clv entry_odds c with
      | some v => ({ bet1 with closing_line := some c, clv := some v }, true)
      | none => ({ bet1 with closing_line := some c }, false)
    else (bet1, true)
  | none => (bet1, true)

/-- `PaperTrader.settle_bet` (lines 117-177).  The profit/bankroll
branch (lines 143-153) runs before any mutation, so a
`ZeroDivisionError` from `_calculate_payout` (win at entry odds `0`)
leaves the state untouched; the CLV branch (lines 161-164) runs after
the bankroll update and the status/result/profit assignments, so an
exception there leaves those mutations in place. -/
def PaperTrader.settle_bet (t : PaperTrader) (bet_id : Nat) (result : String)
    (closing_line : Option Int) : SettleOutcome × PaperTrader :=
  if result ≠ "win" ∧ result ≠ "loss" ∧ result ≠ "push" then
    (.err "Invalid result", t)
  else
    match findBet t.bets bet_id with
    | none => (.err "Bet not found", t)
    | some bet =>
      if bet.status ≠ "pending" then (.err "Bet already settled", t)
      else
        let payResult : Option (ℚ × ℚ) :=
          if result = "win" then
            (calculate_payout bet.stake bet.odds).map
              (fun pay => (pay - bet.stake, t.bankroll + bet.stake + (pay - bet.stake)))
          else if result = "loss" then some (-bet.stake, t.bankroll)
          else some (0, t.bankroll + bet.stake)
        match payResult with
        | none => (.exn "ZeroDivisionError", t)
        | some (profit, bank) =>
          let bet1 : Bet :=
            { bet with status := "settled", result := some result, profit := profit }
          let upd := applyClosing bet1 bet.odds closing_line
          let t1 : PaperTrader :=
            { t with bankroll := bank, bets := updateBet t.bets bet_id upd.1 }
          (if upd.2 then .ok bet_id result profit bank
           else .exn "ZeroDivisionError", t1)

/-! ## Call sequences over the ledger -/

/-- One external call to the ledger. -/
inductive Cmd where
  | place (bet : BetInput)
  | settle (bet_id : Nat) (result : String) (closing_line : Option Int)

/-- The state reached after one call (failed calls leave the state they
return unchanged, raised calls leave the partial state they produced). -/
def step (t : PaperTrader) : Cmd → PaperTrader
  | .place b => (t.place_bet b).2
  | .settle i r c => (t.settle_bet i r c).2

/-- The state after a sequence of calls. -/
def run (t : PaperTrader) : List Cmd → PaperTrader
  | [] => t
  | c :: cs => run (step t c) cs

/-- Stake of a bet while it is pending, else `0`. -/
def pStake (b : Bet) : ℚ := if b.status = "pending" then b.stake else 0

/-- Recorded profit of a bet once settled, else `0`. -/
def sProfit (b : Bet) : ℚ := if b.status = "settled" then b.profit else 0

/-- Sum of a bet-valued quantity over the ledger. -/
def sumF (f : Bet → ℚ) (l : List Bet) : ℚ := (l.map f).sum

/-- The spec's bankroll invariant:
`current = starting − Σ(stake of pending bets) + Σ(profit of settled bets)`. -/
def bankrollInvariant (t : PaperTrader) : Prop :=
  t.bankroll = t.starting_bankroll - sumF pStake t.bets + sumF sProfit t.bets

/-- Non-negativity invariant used for the implicit claim: the bankroll
never goes below zero, and every recorded bet carries the positive
stake that the placement guard enforced. -/
def goodState (t : PaperTrader) : Prop :=
  0 ≤ t.bankroll ∧ ∀ b ∈ t.bets, 0 < b.stake

/-! ## Risk governor (`src/utils/risk_management.py`) -/

/-- `RiskManager` configuration and state (constructor, lines 24-47).
`daily_losses` is written nowhere in the analysed operations and is
omitted. -/
structure RiskManager where
  starting_bankroll : ℚ
  peak_bankroll : ℚ
  max_daily_loss_percent : ℚ
  max_total_drawdown_percent : ℚ
  max_concurrent_bets : Nat
  kelly_fraction : ℚ
deriving DecidableEq

/-- `RiskManager.calculate_position_size` (lines 53-102).  `none`
models the `ZeroDivisionError` of `100 / abs(odds)` at `odds = 0`
(the parameter is typed `float` in the source, hence `ℚ` here). -/
def RiskManager.calculate_position_size (rm : RiskManager)
    (current_bankroll win_probability : ℚ) (odds : ℚ) : Option ℚ :=
  let decimal_odds : Option ℚ :=
    if 0 < odds then some (odds / 100 + 1)
    else if |odds| = 0 then none
    else some (100 / |odds| + 1)
  match decimal_odds with
  | none => none
  | some d =>
    let b := d - 1
    let p := win_probability
    let q := 1 - p
    let kelly_fraction_full := (b * p - q) / b
    let kelly_fraction_adjusted := kelly_fraction_full * rm.kelly_fraction
    if kelly_fraction_adjusted < 0 then some 0
    else some (current_bankroll * min kelly_fraction_adjusted (5 / 100))

/-- `RiskManager.get_current_drawdown` (lines 151-155). -/
def RiskManager.get_current_drawdown (rm : RiskManager) (current_bankroll : ℚ) : ℚ :=
  if rm.peak_bankroll = 0 then 0
  else (rm.peak_bankroll - current_bankroll) / rm.peak_bankroll

/-- `RiskManager.should_halt_trading` (lines 157-160). -/
def RiskManager.should_halt_trading (rm : RiskManager) (current_bankroll : ℚ) : Bool :=
  rm.max_total_drawdown_percent ≤ rm.get_current_drawdown current_bankroll

/-! ## Arbitrage detector (`src/strategies/arbitrage.py`)

The odds dictionary passed to `find_arbitrage` is
`{'bookmakers': [{'name': …, 'markets': {'h2h'|'spreads'|'totals':
{'outcomes': [{'name', 'price', 'point'}]}}}]}`. -/

structure Outcome where
  name : String
  price : Int
  point : ℚ
deriving DecidableEq

structure Bookmaker where
  name : String
  h2h : Option (List Outcome)
  spreads : Option (List Outcome)
  totals : Option (List Outcome)
deriving DecidableEq

structure GameOdds where
  bookmakers : List Bookmaker
deriving DecidableEq

structure Game where
  id : String
  sport : String
  home_team : String
  away_team : String
deriving DecidableEq

/-- An opportunity leg (`{'selection', 'odds', 'bookmaker', 'stake'}`).
In the spread/totals legs the Python appends the formatted point to the
selection string; number-to-string formatting is presentation only and
is dropped, keeping the team/side name. -/
structure Leg where
  selection : String
  odds : Int
  bookmaker : String
  stake : ℚ
deriving DecidableEq

/-- A reported arbitrage opportunity. -/
structure Opportunity where
  game_id : String
  sport : String
  home_team : String
  away_team : String
  bet_type : String
  leg1 : Leg
  leg2 : Leg
  profit_margin : ℚ
  total_stake : ℚ
  guaranteed_profit : ℚ
deriving DecidableEq

structure ArbitrageStrategy where
  min_profit_margin : ℚ
deriving DecidableEq

/-- `ArbitrageStrategy._american_to_decimal` (lines 343-348); `none`
models the `ZeroDivisionError` of `100 / abs(odds)` at `odds = 0`. -/
def american_to_decimal (odds : Int) : Option ℚ :=
  if 0 < odds then some ((odds : ℚ) / 100 + 1)
  else if odds.natAbs = 0 then none
  else some (100 / (odds.natAbs : ℚ) + 1)

structure ArbResult where
  is_arbitrage : Bool
  profit_margin : ℚ
  total_implied_prob : ℚ
deriving DecidableEq

/-- `ArbitrageStrategy._calculate_arbitrage` (lines 285-317). -/
def calculate_arbitrage (odds1 odds2 : Int) : Option ArbResult :=
  match american_to_decimal odds1, american_to_decimal odds2 with
  | some decimal1, some decimal2 =>
    let implied_prob1 := 1 / decimal1
    let implied_prob2 := 1 / decimal2
    let total_prob := implied_prob1 + implied_prob2
    let is_arb : Bool := total_prob < 1
    some { is_arbitrage := is_arb,
           profit_margin := if is_arb then 1 - total_prob else 0,
           total_implied_prob := total_prob }
  | _, _ => none

/-- Round half to even at the given integer (Python 3 `round` tie
behaviour); away from a tie this is rounding to the nearest integer.
Idealizes IEEE-754 doubles by exact rationals. -/
def roundHalfEven (q : ℚ) : ℤ :=
  if q - ⌊q⌋ = 1 / 2 then (if Even ⌊q⌋ then ⌊q⌋ else ⌊q⌋ + 1)
  else round q

/-- Python `round(x, 2)`. -/
def round2 (x : ℚ) : ℚ := (roundHalfEven (100 * x) : ℚ) / 100

structure BetSizes where
  bet1 : ℚ
  bet2 : ℚ
deriving DecidableEq

/-- `ArbitrageStrategy._calculate_bet_sizes` (lines 319-341). -/
def calculate_bet_sizes (odds1 odds2 : Int) (total_stake : ℚ) : Option BetSizes :=
  match american_to_decimal odds1, american_to_decimal odds2 with
  | some decimal1, some decimal2 =>
    let stake1 := total_stake / (1 + decimal1 / decimal2)
    let stake2 := total_stake - stake1
    some { bet1 := round2 stake1, bet2 := round2 stake2 }
  | _, _ => none

/-- Running best quote for one side of the moneyline market
(lines 77-78). -/
structure BestQuote where
  odds : Option Int
  bookmaker : Option String
deriving DecidableEq

/-- `best['odds'] is None or odds_value > best['odds']` (lines 92, 95). -/
def better (cur : Option Int) (price : Int) : Bool :=
  match cur with
  | none => true
  | some v => price > v

/-- The inner loop over `h2h_market['outcomes']` (lines 87-96). -/
def scanOutcomesML (home_team away_team bookmaker_name : String) :
    List Outcome → BestQuote → BestQuote → BestQuote × BestQuote
  | [], best_home, best_away => (best_home, best_away)
  | o :: os, best_home, best_away =>
    if o.name = home_team then
      if better best_home.odds o.price then
        scanOutcomesML home_team away_team bookmaker_name os
          ⟨some o.price, some bookmaker_name⟩ best_away
      else scanOutcomesML home_team away_team bookmaker_name os best_home best_away
    else if o.name = away_team then
      if better best_away.odds o.price then
        scanOutcomesML home_team away_team bookmaker_name os
          best_home ⟨some o.price, some bookmaker_name⟩
      else scanOutcomesML home_team away_team bookmaker_name os best_home best_away
    else scanOutcomesML home_team away_team bookmaker_name os best_home best_away

/-- The outer loop over `odds['bookmakers']` (lines 80-96). -/
def scanBookmakersML (home_team away_team : String) :
    List Bookmaker → BestQuote → BestQuote → BestQuote × BestQuote
  | [], best_home, best_away => (best_home, best_away)
  | bk :: bks, best_home, best_away =>
    match bk.h2h with
    | none => scanBookmakersML home_team away_team bks best_home best_away
    | some outs =>
      let bests := scanOutcomesML home_team away_team bk.name outs best_home best_away
      scanBookmakersML home_team away_team bks bests.1 bests.2

/-- `ArbitrageStrategy._check_moneyline_arbitrage` (lines 69-135).
`if best_home['odds'] and best_away['odds']` is Python truthiness: both
present and nonzero. -/
def check_moneyline_arbitrage (strat : ArbitrageStrategy) (game : Game)
    (odds : GameOdds) : Option (List Opportunity) :=
  let bests := scanBookmakersML game.home_team game.away_team odds.bookmakers
      ⟨none, none⟩ ⟨none, none⟩
  match bests.1.odds, bests.2.odds, bests.1.bookmaker, bests.2.bookmaker with
  | some oh, some oa, bh, ba =>
    if oh ≠ 0 ∧ oa ≠ 0 then
      match calculate_arbitrage oh oa with
      | none => none
      | some arb =>
        if arb.is_arbitrage ∧ strat.min_profit_margin ≤ arb.profit_margin then
          match calculate_bet_sizes oh oa 100 with
          | none => none
          | some sizes =>
            some [{ game_id := game.id, sport := game.sport,
                    home_team := game.home_team, away_team := game.away_team,
                    bet_type := "moneyline",
                    leg1 := { selection := game.home_team, odds := oh,
                              bookmaker := bh.getD "", stake := sizes.bet1 },
                    leg2 := { selection := game.away_team, odds := oa,
                              bookmaker := ba.getD "", stake := sizes.bet2 },
                    profit_margin := arb.profit_margin, total_stake := 100,
                    guaranteed_profit := arb.profit_margin * 100 }]
        else some []
    else some []
  | _, _, _, _ => some []

/-- One side entry of `spreads_by_point[point]` (lines 165-176). -/
structure SideBest where
  odds : Int
  bookmaker : String
  team : String
deriving DecidableEq

/-- One entry of the insertion-ordered dict `spreads_by_point`
(line 145). -/
structure SpreadGroup where
  point : ℚ
  home : Option SideBest
  away : Option SideBest
deriving DecidableEq

/-- `if point not in spreads_by_point: spreads_by_point[point] = {}`
followed by an update of that entry: Python dicts keep insertion order,
so a new point is appended at the end. -/
def updGroups (f : SpreadGroup → SpreadGroup) :
    List SpreadGroup → ℚ → List SpreadGroup
  | [], point => [f { point := point, home := none, away := none }]
  | g :: gs, point =>
    if g.point = point then f g :: gs else g :: updGroups f gs point

/-- Lines 163-176: conditional best-odds update of one spread outcome
inside its point group. -/
def updSpreadOutcome (home_team away_team bookmaker_name : String)
    (o : Outcome) (g : SpreadGroup) : SpreadGroup :=
  if o.name = home_team then
    match g.home with
    | none => { g with home := some ⟨o.price, bookmaker_name, o.name⟩ }
    | some cur =>
      if o.price > cur.odds then
        { g with home := some ⟨o.price, bookmaker_name, o.name⟩ }
      else g
  else if o.name = away_team then
    match g.away with
    | none => { g with away := some ⟨o.price, bookmaker_name, o.name⟩ }
    | some cur =>
      if o.price > cur.odds then
        { g with away := some ⟨o.price, bookmaker_name, o.name⟩ }
      else g
  else g

/-- Inner loop over `spread_market['outcomes']` (lines 154-176).  The
point group is created before the team is inspected (lines 160-161). -/
def scanSpreadOuts (home_team away_team bookmaker_name : String) :
    List Outcome → List SpreadGroup → List SpreadGroup
  | [], gs => gs
  | o :: os, gs =>
    scanSpreadOuts home_team away_team bookmaker_name os
      (updGroups (updSpreadOutcome home_team away_team bookmaker_name o) gs o.point)

/-- Outer loop over `odds['bookmakers']` (lines 147-176). -/
def scanSpreads (home_team away_team : String) :
    List Bookmaker → List SpreadGroup → List SpreadGroup
  | [], gs => gs
  | bk :: bks, gs =>
    match bk.spreads with
    | none => scanSpreads home_team away_team bks gs
    | some outs =>
      scanSpreads home_team away_team bks
        (scanSpreadOuts home_team away_team bk.name outs gs)

/-- The per-group arbitrage check of `_check_spread_arbitrage`
(lines 179-213); a raised `ZeroDivisionError` (odds `0`) aborts the
whole call, discarding opportunities already collected. -/
def checkSpreadGroups (strat : ArbitrageStrategy) (game : Game) :
    List SpreadGroup → Option (List Opportunity)
  | [] => some []
  | g :: gs =>
    match g.home, g.away with
    | some h, some a =>
      match calculate_arbitrage h.odds a.odds with
      | none => none
      | some arb =>
        if arb.is_arbitrage ∧ strat.min_profit_margin ≤ arb.profit_margin then
          match calculate_bet_sizes h.odds a.odds 100 with
          | none => none
          | some sizes =>
            match checkSpreadGroups strat game gs with
            | none => none
            | some rest =>
              some ({ game_id := game.id, sport := game.sport,
                      home_team := game.home_team, away_team := game.away_team,
                      bet_type := "spread",
                      leg1 := { selection := h.team, odds := h.odds,
                                bookmaker := h.bookmaker, stake := sizes.bet1 },
                      leg2 := { selection := a.team, odds := a.odds,
                                bookmaker := a.bookmaker, stake := sizes.bet2 },
                      profit_margin := arb.profit_margin, total_stake := 100,
                      guaranteed_profit := arb.profit_margin * 100 } :: rest)
        else checkSpreadGroups strat game gs
    | _, _ => checkSpreadGroups strat game gs

/-- `ArbitrageStrategy._check_spread_arbitrage` (lines 137-215). -/
def check_spread_arbitrage (strat : ArbitrageStrategy) (game : Game)
    (odds : GameOdds) : Option (List Opportunity) :=
  checkSpreadGroups strat game
    (scanSpreads game.home_team game.away_team odds.bookmakers [])

/-- One side entry of `totals_by_point[point]` (lines 241-244). -/
structure TotalsSide where
  odds : Int
  bookmaker : String
deriving DecidableEq

/-- One entry of `totals_by_point` (line 222): side keys are arbitrary
lower-cased outcome names (only `over`/`under` are read later). -/
structure TotalsGroup where
  point : ℚ
  sides : List (String × TotalsSide)
deriving DecidableEq

/-- `name.lower()` (line 239): Python's `str.lower()` on the ASCII
outcome names (`'Over'`/`'Under'`), written as a character map so that
it evaluates. -/
def strLower (s : String) : String := ⟨s.data.map Char.toLower⟩

/-- `if side not in totals_by_point[point] or odds_value > …['odds']`
(line 240). -/
def updSides (side : String) (price : Int) (book : String) :
    List (String × TotalsSide) → List (String × TotalsSide)
  | [] => [(side, ⟨price, book⟩)]
  | (s, v) :: rest =>
    if s = side then
      if price > v.odds then (s, ⟨price, book⟩) :: rest else (s, v) :: rest
    else (s, v) :: updSides side price book rest

def lookupSide (side : String) : List (String × TotalsSide) → Option TotalsSide
  | [] => none
  | (s, v) :: rest => if s = side then some v else lookupSide side rest

def updTotalsGroups (o : Outcome) (book : String) :
    List TotalsGroup → List TotalsGroup
  | [] => [{ point := o.point, sides := updSides (strLower o.name) o.price book [] }]
  | g :: gs =>
    if g.point = o.point then
      { g with sides := updSides (strLower o.name) o.price book g.sides } :: gs
    else g :: updTotalsGroups o book gs

/-- Inner loop over `totals_market['outcomes']` (lines 231-244). -/
def scanTotalsOuts (bookmaker_name : String) :
    List Outcome → List TotalsGroup → List TotalsGroup
  | [], gs => gs
  | o :: os, gs =>
    scanTotalsOuts bookmaker_name os (updTotalsGroups o bookmaker_name gs)

/-- Outer loop over `odds['bookmakers']` (lines 224-244). -/
def scanTotals : List Bookmaker → List TotalsGroup → List TotalsGroup
  | [], gs => gs
  | bk :: bks, gs =>
    match bk.totals with
    | none => scanTotals bks gs
    | some outs => scanTotals bks (scanTotalsOuts bk.name outs gs)

/-- The per-group arbitrage check of `_check_totals_arbitrage`
(lines 247-281). -/
def checkTotalsGroups (strat : ArbitrageStrategy) (game : Game) :
    List TotalsGroup → Option (List Opportunity)
  | [] => some []
  | g :: gs =>
    match lookupSide "over" g.sides, lookupSide "under" g.sides with
    | some ov, some un =>
      match calculate_arbitrage ov.odds un.odds with
      | none => none
      | some arb =>
        if arb.is_arbitrage ∧ strat.min_profit_margin ≤ arb.profit_margin then
          match calculate_bet_sizes ov.odds un.odds 100 with
          | none => none
          | some sizes =>
            match checkTotalsGroups strat game gs with
            | none => none
            | some rest =>
              some ({ game_id := game.id, sport := game.sport,
                      home_team := game.home_team, away_team := game.away_team,
                      bet_type := "total",
                      leg1 := { selection := "Over", odds := ov.odds,
                                bookmaker := ov.bookmaker, stake := sizes.bet1 },
                      leg2 := { selection := "Under", odds := un.odds,
                                bookmaker := un.bookmaker, stake := sizes.bet2 },
                      profit_margin := arb.profit_margin, total_stake := 100,
                      guaranteed_profit := arb.profit_margin * 100 } :: rest)
        else checkTotalsGroups strat game gs
    | _, _ => checkTotalsGroups strat game gs

/-- `ArbitrageStrategy._check_totals_arbitrage` (lines 217-283). -/
def check_totals_arbitrage (strat : ArbitrageStrategy) (game : Game)
    (odds : GameOdds) : Option (List Opportunity) :=
  checkTotalsGroups strat game (scanTotals odds.bookmakers [])

/-- `ArbitrageStrategy.find_arbitrage` (lines 39-67): the three market
checks in order, concatenating their opportunity lists; an uncaught
exception in any check aborts the call. -/
def find_arbitrage (strat : ArbitrageStrategy) (game : Game)
    (odds : GameOdds) : Option (List Opportunity) :=
  match check_moneyline_arbitrage strat game odds with
  | none => none
  | some ml =>
    match check_spread_arbitrage strat game odds with
    | none => none
    | some sp =>
      match check_totals_arbitrage strat game odds with
      | none => none
      | some tot => some (ml ++ sp ++ tot)

/-! ## Concrete instances used to evaluate the development -/

/-- The payout scenario of the spec: stake 110 at odds −110. -/
def sampleInput : BetInput :=
  { game_id := some "G1", sport := some "nba", bet_type := some "moneyline",
    selection := some "Lakers", odds := some (-110), stake := some 110,
    strategy := some "value" }

/-- A fresh trader holding one pending bet (stake 110 at −110),
bankroll 9890. -/
def samplePending : PaperTrader :=
  ((PaperTrader.fresh 10000).place_bet sampleInput).2

/-- A `place_bet` argument with the required `stake` key missing. -/
def missingStakeInput : BetInput :=
  { sampleInput with stake := none }

/-- A `place_bet` argument with a negative stake. -/
def negStakeInput : BetInput :=
  { sampleInput with stake := some (-5) }

/-- A `place_bet` argument staking more than the whole bankroll. -/
def bigStakeInput : BetInput :=
  { sampleInput with stake := some 20000 }

/-- The record stored by `samplePending` for the sample bet. -/
def sampleBet : Bet :=
  { id := 1, game_id := "G1", sport := "nba", bet_type := "moneyline",
    selection := "Lakers", odds := -110, stake := 110, strategy := "value",
    status := "pending", result := none, profit := 0,
    closing_line := none, clv := none }

/-- The stored record of the settled sample bet. -/
def settledBet : Bet :=
  { sampleBet with status := "settled", result := some "win", profit := 100 }

/-- A trader whose only bet has already been settled. -/
def sampleSettled : PaperTrader :=
  { starting_bankroll := 10000, bankroll := 10100,
    bets := [settledBet], bet_counter := 1 }

/-- Whether a settlement outcome is a returned error dictionary. -/
def SettleOutcome.isErr : SettleOutcome → Bool
  | .err _ => true
  | _ => false

def sampleGame : Game :=
  { id := "G1", sport := "nba", home_team := "Lakers", away_team := "Celtics" }

/-- Default-configured detector (`min_profit_margin = 0.01`). -/
def sampleStrategy : ArbitrageStrategy := { min_profit_margin := 1 / 100 }

/-- One single book quoting the best (and only) odds on both moneyline
sides: +105 on each, an arbitrage of margin 1/41 ≈ 2.4%. -/
def sameBookOdds : GameOdds :=
  { bookmakers :=
      [{ name := "BookX",
         h2h := some [{ name := "Lakers", price := 105, point := 0 },
                      { name := "Celtics", price := 105, point := 0 }],
         spreads := none, totals := none }] }

/-- A spreads market carrying a price of `0` on the home side, grouped
with the away side at the same point. -/
def zeroSpreadOdds : GameOdds :=
  { bookmakers :=
      [{ name := "BookX", h2h := none,
         spreads := some [{ name := "Lakers", price := 0, point := 0 },
                          { name := "Celtics", price := -110, point := 0 }],
         totals := none }] }

/-- A totals market carrying a price of `0` on the under side, grouped
with the over side at the same point. -/
def zeroTotalsOdds : GameOdds :=
  { bookmakers :=
      [{ name := "BookX", h2h := none, spreads := none,
         totals := some [{ name := "Over", price := -110, point := 210 },
                         { name := "Under", price := 0, point := 210 }] }] }

/-- The opportunity the detector reports on `sameBookOdds`: both legs
at the same book. -/
def c4opp : Opportunity :=
  { game_id := "G1", sport := "nba", home_team := "Lakers",
    away_team := "Celtics", bet_type := "moneyline",
    leg1 := { selection := "Lakers", odds := 105, bookmaker := "BookX",
              stake := 50 },
    leg2 := { selection := "Celtics", odds := 105, bookmaker := "BookX",
              stake := 50 },
    profit_margin := 1 / 41, total_stake := 100,
    guaranteed_profit := 100 / 41 }

/-- Default-configured risk manager over a 10000 bankroll
(quarter Kelly, 20% max drawdown). -/
def sampleRisk : RiskManager :=
  { starting_bankroll := 10000, peak_bankroll := 10000,
    max_daily_loss_percent := 1 / 10, max_total_drawdown_percent := 1 / 5,
    max_concurrent_bets := 10, kelly_fraction := 1 / 4 }

/-! ## Ledger helper lemmas -/

theorem sumF_append (f : Bet → ℚ) (l : List Bet) (b : Bet) :
    sumF f (l ++ [b]) = sumF f l + f b := by
  simp [sumF]

theorem findBet_id {i : Nat} {b : Bet} :
    ∀ {l : List Bet}, findBet l i = some b → b.id = i := by
  intro l
  induction l with
  | nil => intro h; simp [findBet] at h
  | cons hd tl ih =>
    intro h
    simp only [findBet] at h
    split at h
    · next heq => injection h with h2; subst h2; exact heq
    · exact ih h

theorem findBet_mem {i : Nat} {b : Bet} :
    ∀ {l : List Bet}, findBet l i = some b → b ∈ l := by
  intro l
  induction l with
  | nil => intro h; simp [findBet] at h
  | cons hd tl ih =>
    intro h
    simp only [findBet] at h
    split at h
    · injection h with h2; subst h2; exact List.mem_cons_self _ _
    · exact List.mem_cons_of_mem _ (ih h)

theorem sumF_updateBet (f : Bet → ℚ) {i : Nat} {b : Bet} (nb : Bet) :
    ∀ {l : List Bet}, findBet l i = some b →
      sumF f (updateBet l i nb) = sumF f l - f b + f nb := by
  intro l
  induction l with
  | nil => intro h; simp [findBet] at h
  | cons hd tl ih =>
    intro h
    simp only [findBet] at h
    simp only [updateBet]
    split at h
    · next heq =>
      injection h with h2; subst h2
      rw [if_pos heq]
      simp [sumF]
      ring
    · next heq =>
      rw [if_neg heq]
      simp only [sumF, List.map_cons, List.sum_cons] at *
      rw [ih h]
      ring

theorem mem_updateBet {i : Nat} {nb b' : Bet} :
    ∀ {l : List Bet}, b' ∈ updateBet l i nb → b' ∈ l ∨ b' = nb := by
  intro l
  induction l with
  | nil => intro h; simp [updateBet] at h
  | cons hd tl ih =>
    intro h
    simp only [updateBet] at h
    split at h
    · rcases List.mem_cons.mp h with h1 | h1
      · exact Or.inr h1
      · exact Or.inl (List.mem_cons_of_mem _ h1)
    · rcases List.mem_cons.mp h with h1 | h1
      · exact Or.inl (h1 ▸ List.mem_cons_self _ _)
      · rcases ih h1 with h2 | h2
        · exact Or.inl (List.mem_cons_of_mem _ h2)
        · exact Or.inr h2

theorem findBet_updateBet {i : Nat} {b : Bet} {nb : Bet} (hid : nb.id = i) :
    ∀ {l : List Bet}, findBet l i = some b →
      findBet (updateBet l i nb) i = some nb := by
  intro l
  induction l with
  | nil => intro h; simp [findBet] at h
  | cons hd tl ih =>
    intro h
    simp only [findBet] at h
    simp only [updateBet]
    split at h
    · next heq => rw [if_pos heq]; simp [findBet, hid]
    · next heq => rw [if_neg heq]; simp only [findBet, if_neg heq]; exact ih h

/-- The fields of the settled record that `applyClosing` never touches. -/
theorem applyClosing_fields (b1 : Bet) (e : Int) (cl : Option Int) :
    (applyClosing b1 e cl).1.status = b1.status ∧
    (applyClosing b1 e cl).1.profit = b1.profit ∧
    (applyClosing b1 e cl).1.stake = b1.stake ∧
    (applyClosing b1 e cl).1.id = b1.id := by
  cases cl with
  | none => simp [applyClosing]
  | some c =>
    by_cases hc : c ≠ 0
    · cases hcl : calculate_clv e c <;> simp [applyClosing, hc, hcl]
    · simp [applyClosing, hc]

/-- Core of settlement preservation: settling turns one pending bet
into a settled one with recorded profit `profit` while moving the
bankroll to `t.bankroll + stake + profit`. -/
theorem settle_core_invariant (t : PaperTrader) (i : Nat) {bet : Bet}
    (hfb : findBet t.bets i = some bet) (hpend : bet.status = "pending")
    {profit bank : ℚ} (hbank : bank = t.bankroll + bet.stake + profit)
    {nb : Bet} (hst : nb.status = "settled") (hpr : nb.profit = profit)
    (h : bankrollInvariant t) :
    bankrollInvariant { t with bankroll := bank, bets := updateBet t.bets i nb } := by
  unfold bankrollInvariant at *
  simp only
  rw [sumF_updateBet pStake nb hfb, sumF_updateBet sProfit nb hfb]
  have h1 : pStake bet = bet.stake := by simp [pStake, hpend]
  have h2 : pStake nb = 0 := by simp [pStake, hst]
  have h3 : sProfit bet = 0 := by simp [sProfit, hpend]
  have h4 : sProfit nb = profit := by simp [sProfit, hst, hpr]
  rw [h1, h2, h3, h4, hbank, h]
  ring

/-- `place_bet` preserves the bankroll invariant. -/
theorem place_bet_invariant (t : PaperTrader) (bet : BetInput)
    (h : bankrollInvariant t) : bankrollInvariant (t.place_bet bet).2 := by
  obtain ⟨gid, sp, bt, sel, odds, stake, strat⟩ := bet
  cases gid with
  | none => exact h
  | some gid =>
  cases sp with
  | none => exact h
  | some sp =>
  cases bt with
  | none => exact h
  | some bt =>
  cases sel with
  | none => exact h
  | some sel =>
  cases odds with
  | none => exact h
  | some odds =>
  cases stake with
  | none => exact h
  | some stake =>
  cases strat with
  | none => exact h
  | some strat =>
  by_cases h1 : stake > t.bankroll
  · simpa [PaperTrader.place_bet, h1] using h
  · by_cases h2 : stake ≤ 0
    · simpa [PaperTrader.place_bet, h1, h2] using h
    · unfold bankrollInvariant at *
      simp only [PaperTrader.place_bet, if_neg h1, if_neg h2]
      rw [sumF_append, sumF_append]
      simp only [pStake, sProfit]
      norm_num
      rw [h]
      ring

/-- `settle_bet` preserves the bankroll invariant, on every path
including the returned-error and raised-exception ones. -/
theorem settle_bet_invariant (t : PaperTrader) (i : Nat) (r : String)
    (cl : Option Int) (h : bankrollInvariant t) :
    bankrollInvariant (t.settle_bet i r cl).2 := by
  unfold PaperTrader.settle_bet
  split
  · exact h
  · next hres =>
    cases hfb : findBet t.bets i with
    | none => exact h
    | some bet =>
      simp only
      split
      · exact h
      · next hpend =>
        push_neg at hpend
        push_neg at hres
        by_cases hw : r = "win"
        · subst hw
          cases hp : calculate_payout bet.stake bet.odds with
          | none => simpa [hp] using h
          | some pay =>
            simp only [hp, Option.map_some, if_pos rfl]
            exact settle_core_invariant t i hfb hpend rfl
              ((applyClosing_fields _ bet.odds cl).1)
              (((applyClosing_fields _ bet.odds cl).2).1) h
        · by_cases hl : r = "loss"
          · subst hl
            simp only [if_neg (by decide : ¬ ("loss" : String) = "win"), if_pos rfl]
            exact settle_core_invariant t i hfb hpend (by ring)
              ((applyClosing_fields _ bet.odds cl).1)
              (((applyClosing_fields _ bet.odds cl).2).1) h
          · simp only [if_neg hw, if_neg hl]
            exact settle_core_invariant t i hfb hpend (by ring)
              ((applyClosing_fields _ bet.odds cl).1)
              (((applyClosing_fields _ bet.odds cl).2).1) h

/-- One step preserves the bankroll invariant. -/
theorem step_invariant (t : PaperTrader) (c : Cmd)
    (h : bankrollInvariant t) : bankrollInvariant (step t c) := by
  cases c with
  | place b => exact place_bet_invariant t b h
  | settle i r cl => exact settle_bet_invariant t i r cl h

/-- Any run from an invariant state stays invariant. -/
theorem run_invariant (cmds : List Cmd) :
    ∀ t : PaperTrader, bankrollInvariant t → bankrollInvariant (run t cmds) := by
  induction cmds with
  | nil => intro t h; exact h
  | cons c cs ih => intro t h; exact ih _ (step_invariant t c h)

/-- A winning payout on a positive stake is positive. -/
theorem calculate_payout_pos {stake : ℚ} {odds : Int} {pay : ℚ}
    (hs : 0 < stake) (hp : calculate_payout stake odds = some pay) : 0 < pay := by
  unfold calculate_payout at hp
  split at hp
  · next ho =>
    injection hp with hpay
    subst hpay
    have h1 : (0 : ℚ) < (odds : ℚ) := by exact_mod_cast ho
    have h2 : (0 : ℚ) < stake * ((odds : ℚ) / 100) :=
      mul_pos hs (div_pos h1 (by norm_num))
    linarith
  · split at hp
    · exact absurd hp (by simp)
    · next hno =>
      injection hp with hpay
      subst hpay
      have h0 : (0 : ℚ) < (odds.natAbs : ℚ) := by
        exact_mod_cast Nat.pos_of_ne_zero hno
      have h2 : (0 : ℚ) < stake * (100 / (odds.natAbs : ℚ)) :=
        mul_pos hs (div_pos (by norm_num) h0)
      linarith

/-- Core of settlement for `goodState`: the bankroll moves to a value
no smaller than before and the replaced record keeps its stake. -/
theorem settle_core_good (t : PaperTrader) (i : Nat) {bet : Bet}
    (hfb : findBet t.bets i = some bet) {bank : ℚ} (hbank : t.bankroll ≤ bank)
    {nb : Bet} (hstake : nb.stake = bet.stake) (h : goodState t) :
    goodState { t with bankroll := bank, bets := updateBet t.bets i nb } := by
  refine ⟨le_trans h.1 hbank, ?_⟩
  intro b' hb'
  rcases mem_updateBet hb' with h1 | h1
  · exact h.2 b' h1
  · rw [h1, hstake]; exact h.2 bet (findBet_mem hfb)

/-- `place_bet` preserves `goodState`. -/
theorem place_bet_good (t : PaperTrader) (bet : BetInput)
    (h : goodState t) : goodState (t.place_bet bet).2 := by
  obtain ⟨gid, sp, bt, sel, odds, stake, strat⟩ := bet
  cases gid with
  | none => exact h
  | some gid =>
  cases sp with
  | none => exact h
  | some sp =>
  cases bt with
  | none => exact h
  | some bt =>
  cases sel with
  | none => exact h
  | some sel =>
  cases odds with
  | none => exact h
  | some odds =>
  cases stake with
  | none => exact h
  | some stake =>
  cases strat with
  | none => exact h
  | some strat =>
  by_cases h1 : stake > t.bankroll
  · simpa [PaperTrader.place_bet, h1] using h
  · by_cases h2 : stake ≤ 0
    · simpa [PaperTrader.place_bet, h1, h2] using h
    · push_neg at h1 h2
      simp only [PaperTrader.place_bet, if_neg (not_lt.mpr h1), if_neg (not_le.mpr h2)]
      constructor
      · simp only
        linarith
      · intro b' hb'
        simp only [List.mem_append, List.mem_singleton] at hb'
        rcases hb' with hb' | hb'
        · exact h.2 b' hb'
        · rw [hb']; exact h2

/-- `settle_bet` preserves `goodState` and never decreases the
bankroll, on every path. -/
theorem settle_bet_good (t : PaperTrader) (i : Nat) (r : String)
    (cl : Option Int) (h : goodState t) :
    goodState (t.settle_bet i r cl).2 ∧
      t.bankroll ≤ (t.settle_bet i r cl).2.bankroll := by
  unfold PaperTrader.settle_bet
  split
  · exact ⟨h, le_refl _⟩
  · next hres =>
    cases hfb : findBet t.bets i with
    | none => exact ⟨h, le_refl _⟩
    | some bet =>
      simp only
      split
      · exact ⟨h, le_refl _⟩
      · next hpend =>
        have hstakepos : 0 < bet.stake := h.2 bet (findBet_mem hfb)
        by_cases hw : r = "win"
        · subst hw
          cases hp : calculate_payout bet.stake bet.odds with
          | none =>
            simp only [hp, if_pos rfl, Option.map_none]
            exact ⟨h, le_refl _⟩
          | some pay =>
            have hpaypos := calculate_payout_pos hstakepos hp
            simp only [hp, Option.map_some, if_pos rfl]
            refine ⟨settle_core_good t i hfb (by linarith)
              (((applyClosing_fields _ bet.odds cl).2).2.1) h, ?_⟩
            show t.bankroll ≤ t.bankroll + bet.stake + (pay - bet.stake)
            linarith
        · by_cases hl : r = "loss"
          · subst hl
            simp only [if_neg (by decide : ¬ ("loss" : String) = "win"), if_pos rfl]
            refine ⟨settle_core_good t i hfb (le_refl _)
              (((applyClosing_fields _ bet.odds cl).2).2.1) h, le_refl _⟩
          · simp only [if_neg hw, if_neg hl]
            refine ⟨settle_core_good t i hfb (by linarith)
              (((applyClosing_fields _ bet.odds cl).2).2.1) h, ?_⟩
            show t.bankroll ≤ t.bankroll + bet.stake
            linarith

/-- One step preserves `goodState`. -/
theorem step_good (t : PaperTrader) (c : Cmd) (h : goodState t) :
    goodState (step t c) := by
  cases c with
  | place b => exact place_bet_good t b h
  | settle i r cl => exact (settle_bet_good t i r cl h).1

/-- Any run from a good state stays good. -/
theorem run_good (cmds : List Cmd) :
    ∀ t : PaperTrader, goodState t → goodState (run t cmds) := by
  induction cmds with
  | nil => intro t h; exact h
  | cons c cs ih => intro t h; exact ih _ (step_good t c h)

/-- `place_bet` never touches the starting bankroll. -/
theorem place_bet_starting (t : PaperTrader) (bet : BetInput) :
    ((t.place_bet bet).2).starting_bankroll = t.starting_bankroll := by
  unfold PaperTrader.place_bet
  split
  · split
    · rfl
    · split
      · rfl
      · rfl
  · rfl

/-- `settle_bet` never touches the starting bankroll. -/
theorem settle_bet_starting (t : PaperTrader) (i : Nat) (r : String)
    (cl : Option Int) :
    ((t.settle_bet i r cl).2).starting_bankroll = t.starting_bankroll := by
  unfold PaperTrader.settle_bet
  split
  · rfl
  · cases findBet t.bets i with
    | none => rfl
    | some bet =>
      simp only
      split
      · rfl
      · split
        · rfl
        · rfl

/-- Runs never touch the starting bankroll. -/
theorem run_starting (cmds : List Cmd) :
    ∀ t : PaperTrader, (run t cmds).starting_bankroll = t.starting_bankroll := by
  induction cmds with
  | nil => intro t; rfl
  | cons c cs ih =>
    intro t
    rw [run, ih]
    cases c with
    | place b => exact place_bet_starting t b
    | settle i r cl => exact settle_bet_starting t i r cl

/-- C1: after any sequence of `place_bet`/`settle_bet` calls on a fresh
`PaperTrader` with starting bankroll `S`, the current bankroll equals
`S` minus the total stake of the still-pending bets plus the total
recorded profit of the settled bets.  (Quantifying over all call lists
covers the state after every call of every sequence, failed and raised
calls included.) -/
theorem c1_bankroll_invariant (S : ℚ) (cmds : List Cmd) :
    (run (PaperTrader.fresh S) cmds).bankroll =
      S - sumF pStake (run (PaperTrader.fresh S) cmds).bets +
        sumF sProfit (run (PaperTrader.fresh S) cmds).bets := by
  have h0 : bankrollInvariant (PaperTrader.fresh S) := by
    simp [bankrollInvariant, PaperTrader.fresh, sumF]
  have h := run_invariant cmds _ h0
  unfold bankrollInvariant at h
  rw [h, run_starting]
  rfl

/-- C10: from any non-negative starting bankroll, the bankroll stays
non-negative after every sequence of calls, and no settlement outcome
on the reached state ever decreases the bankroll. -/
theorem c10_bankroll_nonneg (S : ℚ) (hS : 0 ≤ S) (cmds : List Cmd)
    (i : Nat) (r : String) (cl : Option Int) :
    0 ≤ (run (PaperTrader.fresh S) cmds).bankroll ∧
      (run (PaperTrader.fresh S) cmds).bankroll ≤
        ((run (PaperTrader.fresh S) cmds).settle_bet i r cl).2.bankroll := by
  have h0 : goodState (PaperTrader.fresh S) := by
    refine ⟨hS, ?_⟩
    intro b hb
    simp [PaperTrader.fresh] at hb
  have h := run_good cmds _ h0
  exact ⟨h.1, (settle_bet_good _ i r cl h).2⟩

/-- Witness for C10 at a concrete run: place a 110 stake from 10000,
then observe non-negativity and settlement monotonicity. -/
theorem c10_bankroll_nonneg_witness :
    0 ≤ (run (PaperTrader.fresh 10000) [Cmd.place sampleInput]).bankroll ∧
      (run (PaperTrader.fresh 10000) [Cmd.place sampleInput]).bankroll ≤
        ((run (PaperTrader.fresh 10000) [Cmd.place sampleInput]).settle_bet
          1 "push" none).2.bankroll :=
  c10_bankroll_nonneg 10000 (by norm_num) [Cmd.place sampleInput] 1 "push" none

/-- Closed form of the winning payout at nonzero odds. -/
theorem calculate_payout_eq (stake : ℚ) {o : Int} (ho : o ≠ 0) :
    calculate_payout stake o =
      some (stake + (if 0 < o then stake * ((o : ℚ) / 100)
                     else stake * (100 / (o.natAbs : ℚ)))) := by
  unfold calculate_payout
  by_cases h : 0 < o
  · rw [if_pos h, if_pos h]
  · rw [if_neg h, if_neg h, if_neg (by simpa [Int.natAbs_eq_zero] using ho)]

/-- The implied probability of a nonzero American quote is positive. -/
theorem odds_to_prob_pos {o : Int} (ho : o ≠ 0) : 0 < odds_to_prob o := by
  unfold odds_to_prob
  by_cases h : 0 < o
  · rw [if_pos h]
    have h1 : (0 : ℚ) < (o : ℚ) := by exact_mod_cast h
    exact div_pos (by norm_num) (by linarith)
  · rw [if_neg h]
    have h0 : (0 : ℚ) < (o.natAbs : ℚ) := by
      exact_mod_cast Nat.pos_of_ne_zero (by simpa [Int.natAbs_eq_zero] using ho)
    exact div_pos h0 (by linarith)

/-- At nonzero entry odds the CLV computation never raises. -/
theorem calculate_clv_eq {o : Int} (c : Int) (ho : o ≠ 0) :
    calculate_clv o c =
      some (((odds_to_prob c - odds_to_prob o) / odds_to_prob o) * 100) := by
  unfold calculate_clv
  rw [if_neg (ne_of_gt (odds_to_prob_pos ho))]

/-- At nonzero entry odds `applyClosing` never raises. -/
theorem applyClosing_flag (b1 : Bet) {e : Int} (he : e ≠ 0) (cl : Option Int) :
    (applyClosing b1 e cl).2 = true := by
  cases cl with
  | none => rfl
  | some c =>
    by_cases hc : c ≠ 0
    · simp [applyClosing, hc, calculate_clv_eq c he]
    · simp [applyClosing, hc]

/-- C2: settling a pending bet of stake `s` at nonzero entry odds `o`
yields, for a win, profit `s·(o/100)` for positive odds and
`s·(100/|o|)` for negative odds with the bankroll raised by
`s + profit`; for a loss, profit `−s` with the bankroll unchanged; for
a push, profit `0` with the bankroll raised by `s` — both in the
returned settlement and in the stored state. -/
theorem c2_settlement_payout (t : PaperTrader) (i : Nat) (b : Bet)
    (cl : Option Int) (hfb : findBet t.bets i = some b)
    (hpend : b.status = "pending") (ho : b.odds ≠ 0) :
    (t.settle_bet i "win" cl).1 =
      .ok i "win"
        (if 0 < b.odds then b.stake * ((b.odds : ℚ) / 100)
         else b.stake * (100 / (b.odds.natAbs : ℚ)))
        (t.bankroll + b.stake +
          (if 0 < b.odds then b.stake * ((b.odds : ℚ) / 100)
           else b.stake * (100 / (b.odds.natAbs : ℚ)))) ∧
    (t.settle_bet i "win" cl).2.bankroll =
      t.bankroll + b.stake +
        (if 0 < b.odds then b.stake * ((b.odds : ℚ) / 100)
         else b.stake * (100 / (b.odds.natAbs : ℚ))) ∧
    (t.settle_bet i "loss" cl).1 = .ok i "loss" (-b.stake) t.bankroll ∧
    (t.settle_bet i "loss" cl).2.bankroll = t.bankroll ∧
    (t.settle_bet i "push" cl).1 = .ok i "push" 0 (t.bankroll + b.stake) ∧
    (t.settle_bet i "push" cl).2.bankroll = t.bankroll + b.stake := by
  refine ⟨?_, ?_, ?_, ?_, ?_, ?_⟩ <;>
    simp only [PaperTrader.settle_bet, hfb, calculate_payout_eq b.stake ho] <;>
    simp [hpend, applyClosing_flag _ ho cl] <;>
    ring_nf

/-- Witness for C2 on the sample bet (stake 110 at −110, spec §8
scenario): win pays to 10100, loss leaves 9890, push restores 10000. -/
theorem c2_settlement_payout_witness :
    findBet samplePending.bets 1 = some sampleBet ∧
    sampleBet.status = "pending" ∧
    sampleBet.odds ≠ 0 ∧
    (samplePending.settle_bet 1 "win" none).2.bankroll = 10100 ∧
    (samplePending.settle_bet 1 "loss" none).2.bankroll = 9890 ∧
    (samplePending.settle_bet 1 "push" none).2.bankroll = 10000 := by
  have hb : samplePending.bankroll = 9890 := by
    norm_num [samplePending, sampleInput, PaperTrader.fresh, PaperTrader.place_bet]
  refine ⟨by decide, rfl, by decide, ?_, ?_, ?_⟩
  · rw [(c2_settlement_payout samplePending 1 sampleBet none
      (by decide) rfl (by decide)).2.1, hb]
    norm_num [sampleBet]
  · rw [(c2_settlement_payout samplePending 1 sampleBet none
      (by decide) rfl (by decide)).2.2.2.1]
    exact hb
  · rw [(c2_settlement_payout samplePending 1 sampleBet none
      (by decide) rfl (by decide)).2.2.2.2.2, hb]
    norm_num [sampleBet]

/-- A `place_bet` call with any required key absent fails without
mutating anything. -/
theorem place_bet_missing_field (t : PaperTrader) (bet : BetInput)
    (h : bet.game_id = none ∨ bet.sport = none ∨ bet.bet_type = none ∨
      bet.selection = none ∨ bet.odds = none ∨ bet.stake = none ∨
      bet.strategy = none) :
    t.place_bet bet = (none, t) := by
  obtain ⟨gid, sp, bt, sel, od, st, strat⟩ := bet
  cases gid <;> cases sp <;> cases bt <;> cases sel <;> cases od <;>
    cases st <;> cases strat <;> first | rfl | simp_all

/-- A `place_bet` call with a non-positive stake fails without
mutating anything. -/
theorem place_bet_stake_nonpos (t : PaperTrader) (bet : BetInput) {s : ℚ}
    (hst : bet.stake = some s) (hs : s ≤ 0) : t.place_bet bet = (none, t) := by
  obtain ⟨gid, sp, bt, sel, od, st, strat⟩ := bet
  cases st with
  | none => exact absurd hst (by simp)
  | some st =>
    injection hst with hst2
    subst hst2
    cases gid <;> cases sp <;> cases bt <;> cases sel <;> cases od <;>
      cases strat <;> try rfl
    simp only [PaperTrader.place_bet]
    split_ifs with h1 <;> rfl

/-- A `place_bet` call staking more than the bankroll fails without
mutating anything. -/
theorem place_bet_stake_exceeds (t : PaperTrader) (bet : BetInput) {s : ℚ}
    (hst : bet.stake = some s) (hs : t.bankroll < s) :
    t.place_bet bet = (none, t) := by
  obtain ⟨gid, sp, bt, sel, od, st, strat⟩ := bet
  cases st with
  | none => exact absurd hst (by simp)
  | some st =>
    injection hst with hst2
    subst hst2
    cases gid <;> cases sp <;> cases bt <;> cases sel <;> cases od <;>
      cases strat <;> try rfl
    simp only [PaperTrader.place_bet]
    split_ifs <;> rfl

/-- `settle_bet` with a result outside win/loss/push returns the
invalid-result error and changes nothing. -/
theorem settle_bet_invalid_result (t : PaperTrader) (i : Nat) (r : String)
    (cl : Option Int) (h : r ≠ "win" ∧ r ≠ "loss" ∧ r ≠ "push") :
    t.settle_bet i r cl = (.err "Invalid result", t) := by
  unfold PaperTrader.settle_bet
  rw [if_pos h]

/-- `settle_bet` on an unknown id fails and changes nothing. -/
theorem settle_bet_not_found (t : PaperTrader) (i : Nat) (r : String)
    (cl : Option Int) (h : findBet t.bets i = none) :
    (t.settle_bet i r cl).1.isErr = true ∧ (t.settle_bet i r cl).2 = t := by
  unfold PaperTrader.settle_bet
  split
  · exact ⟨rfl, rfl⟩
  · rw [h]
    exact ⟨rfl, rfl⟩

/-- `settle_bet` on a bet that is no longer pending fails and changes
nothing. -/
theorem settle_bet_already_settled (t : PaperTrader) (i : Nat) (r : String)
    (cl : Option Int) {b : Bet} (hfb : findBet t.bets i = some b)
    (hb : b.status ≠ "pending") :
    (t.settle_bet i r cl).1.isErr = true ∧ (t.settle_bet i r cl).2 = t := by
  unfold PaperTrader.settle_bet
  split
  · exact ⟨rfl, rfl⟩
  · rw [hfb]
    simp only
    rw [if_pos hb]
    exact ⟨rfl, rfl⟩

/-- C3: every failing call is atomic and explicit — `place_bet` with a
missing required field, a non-positive stake, or a stake above the
bankroll returns `none` with the state untouched; `settle_bet` with an
invalid result string, an unknown id, or an already-settled bet
returns an error with the state untouched. -/
theorem c3_failures_atomic (t : PaperTrader) (bet : BetInput) (s : ℚ)
    (i : Nat) (r : String) (cl : Option Int) (b : Bet) :
    ((bet.game_id = none ∨ bet.sport = none ∨ bet.bet_type = none ∨
        bet.selection = none ∨ bet.odds = none ∨ bet.stake = none ∨
        bet.strategy = none) → t.place_bet bet = (none, t)) ∧
    (bet.stake = some s → s ≤ 0 → t.place_bet bet = (none, t)) ∧
    (bet.stake = some s → t.bankroll < s → t.place_bet bet = (none, t)) ∧
    (r ≠ "win" ∧ r ≠ "loss" ∧ r ≠ "push" →
      (t.settle_bet i r cl).1.isErr = true ∧ (t.settle_bet i r cl).2 = t) ∧
    (findBet t.bets i = none →
      (t.settle_bet i r cl).1.isErr = true ∧ (t.settle_bet i r cl).2 = t) ∧
    (findBet t.bets i = some b → b.status ≠ "pending" →
      (t.settle_bet i r cl).1.isErr = true ∧ (t.settle_bet i r cl).2 = t) := by
  refine ⟨place_bet_missing_field t bet, ?_, ?_, ?_,
    settle_bet_not_found t i r cl, ?_⟩
  · intro h1 h2
    exact place_bet_stake_nonpos t bet h1 h2
  · intro h1 h2
    exact place_bet_stake_exceeds t bet h1 h2
  · intro h
    rw [settle_bet_invalid_result t i r cl h]
    exact ⟨rfl, rfl⟩
  · intro h1 h2
    exact settle_bet_already_settled t i r cl h1 h2

/-- Witness for C3: each rejection observed at a concrete input —
missing stake key, stake −5, stake 20000 over bankroll 10000, result
string `banana`, unknown id 999, and re-settling an already settled
bet. -/
theorem c3_failures_atomic_witness :
    (PaperTrader.fresh 10000).place_bet missingStakeInput =
      (none, PaperTrader.fresh 10000) ∧
    (PaperTrader.fresh 10000).place_bet negStakeInput =
      (none, PaperTrader.fresh 10000) ∧
    (PaperTrader.fresh 10000).place_bet bigStakeInput =
      (none, PaperTrader.fresh 10000) ∧
    ((samplePending.settle_bet 1 "banana" none).1.isErr = true ∧
      (samplePending.settle_bet 1 "banana" none).2 = samplePending) ∧
    ((samplePending.settle_bet 999 "win" none).1.isErr = true ∧
      (samplePending.settle_bet 999 "win" none).2 = samplePending) ∧
    ((sampleSettled.settle_bet 1 "win" none).1.isErr = true ∧
      (sampleSettled.settle_bet 1 "win" none).2 = sampleSettled) := by
  refine ⟨?_, ?_, ?_, ?_, ?_, ?_⟩
  · exact (c3_failures_atomic (PaperTrader.fresh 10000) missingStakeInput 0
      0 "" none sampleBet).1 (by simp [missingStakeInput, sampleInput])
  · exact (c3_failures_atomic (PaperTrader.fresh 10000) negStakeInput (-5)
      0 "" none sampleBet).2.1 rfl (by norm_num)
  · exact (c3_failures_atomic (PaperTrader.fresh 10000) bigStakeInput 20000
      0 "" none sampleBet).2.2.1 rfl (by norm_num [PaperTrader.fresh])
  · exact (c3_failures_atomic samplePending missingStakeInput 0
      1 "banana" none sampleBet).2.2.2.1 (by decide)
  · exact (c3_failures_atomic samplePending missingStakeInput 0
      999 "win" none sampleBet).2.2.2.2.1 (by decide)
  · exact (c3_failures_atomic sampleSettled missingStakeInput 0
      1 "win" none settledBet).2.2.2.2.2 (by decide) (by decide)

/-- C7: `calculate_position_size` returns `0` whenever the fractional
Kelly value `f = kelly_fraction · (b·p − (1−p))/b` is non-positive
(with `b` the net decimal odds), otherwise returns
`bankroll · min f 0.05`; in every case the returned stake is at most
5% of the bankroll. -/
theorem c7_kelly_sizing (rm : RiskManager) (B p o : ℚ)
    (hB : 0 ≤ B) (hp0 : 0 ≤ p) (hp1 : p ≤ 1) (ho : o ≠ 0) :
    (rm.kelly_fraction *
        (((if 0 < o then o / 100 else 100 / |o|) * p - (1 - p)) /
          (if 0 < o then o / 100 else 100 / |o|)) ≤ 0 →
      rm.calculate_position_size B p o = some 0) ∧
    (0 < rm.kelly_fraction *
        (((if 0 < o then o / 100 else 100 / |o|) * p - (1 - p)) /
          (if 0 < o then o / 100 else 100 / |o|)) →
      rm.calculate_position_size B p o =
        some (B * min (rm.kelly_fraction *
          (((if 0 < o then o / 100 else 100 / |o|) * p - (1 - p)) /
            (if 0 < o then o / 100 else 100 / |o|))) (5 / 100))) ∧
    (∀ r, rm.calculate_position_size B p o = some r → r ≤ 5 / 100 * B) := by
  have habs : ¬ |o| = 0 := by simpa [abs_eq_zero] using ho
  have hd : (if 0 < o then some (o / 100 + 1) else
      if |o| = 0 then none else some (100 / |o| + 1)) =
      some ((if 0 < o then o / 100 else 100 / |o|) + 1) := by
    by_cases h : 0 < o
    · rw [if_pos h, if_pos h]
    · rw [if_neg h, if_neg habs, if_neg h]
  have hfeq : ∀ d : ℚ, ((d + 1 - 1) * p - (1 - p)) / (d + 1 - 1) * rm.kelly_fraction
      = rm.kelly_fraction * ((d * p - (1 - p)) / d) := by
    intro d
    ring_nf
  unfold RiskManager.calculate_position_size
  rw [hd]
  simp only [hfeq]
  set f := rm.kelly_fraction *
    (((if 0 < o then o / 100 else 100 / |o|) * p - (1 - p)) /
      (if 0 < o then o / 100 else 100 / |o|)) with hf
  refine ⟨?_, ?_, ?_⟩
  · intro hle
    by_cases hneg : f < 0
    · rw [if_pos hneg]
    · rw [if_neg hneg]
      have h0 : f = 0 := le_antisymm hle (not_lt.mp hneg)
      rw [h0, min_eq_left (by norm_num), mul_zero]
  · intro hpos
    rw [if_neg (not_lt.mpr (le_of_lt hpos))]
  · intro r hr
    by_cases hneg : f < 0
    · rw [if_pos hneg] at hr
      injection hr with hr2
      subst hr2
      positivity
    · rw [if_neg hneg] at hr
      injection hr with hr2
      subst hr2
      calc B * min f (5 / 100) ≤ B * (5 / 100) :=
            mul_le_mul_of_nonneg_left (min_le_right _ _) hB
        _ = 5 / 100 * B := by ring

/-- Witness for C7 at the spec's no-edge point: quarter Kelly, bankroll
10000, p = 1/2, odds −110 give a non-positive Kelly fraction and a
stake of exactly 0. -/
theorem c7_kelly_sizing_witness :
    (0 : ℚ) ≤ 10000 ∧ (0 : ℚ) ≤ 1 / 2 ∧ (1 / 2 : ℚ) ≤ 1 ∧ (-110 : ℚ) ≠ 0 ∧
    sampleRisk.calculate_position_size 10000 (1 / 2) (-110) = some 0 := by
  refine ⟨by norm_num, by norm_num, by norm_num, by norm_num, ?_⟩
  exact (c7_kelly_sizing sampleRisk 10000 (1 / 2) (-110)
    (by norm_num) (by norm_num) (by norm_num) (by norm_num)).1
    (by norm_num [sampleRisk])

/-- C9: with a positive peak, `should_halt_trading` is true exactly
when the drawdown from peak reaches the configured limit; at peak
10000 and limit 0.20 this means bankroll ≤ 8000. -/
theorem c9_drawdown_halt (rm : RiskManager) (bankroll : ℚ)
    (hpeak : 0 < rm.peak_bankroll) :
    (rm.should_halt_trading bankroll = true ↔
      rm.max_total_drawdown_percent ≤
        (rm.peak_bankroll - bankroll) / rm.peak_bankroll) ∧
    (rm.peak_bankroll = 10000 → rm.max_total_drawdown_percent = 1 / 5 →
      (rm.should_halt_trading bankroll = true ↔ bankroll ≤ 8000)) := by
  have hmain : rm.should_halt_trading bankroll = true ↔
      rm.max_total_drawdown_percent ≤
        (rm.peak_bankroll - bankroll) / rm.peak_bankroll := by
    unfold RiskManager.should_halt_trading RiskManager.get_current_drawdown
    rw [if_neg (ne_of_gt hpeak)]
    exact decide_eq_true_iff
  refine ⟨hmain, ?_⟩
  intro hpk hlim
  rw [hmain, hpk, hlim]
  rw [le_div_iff (by norm_num)]
  constructor
  · intro h; linarith
  · intro h; linarith

/-- Witness for C9: the sample risk configuration halts at bankroll
8000 and does not halt at 8001. -/
theorem c9_drawdown_halt_witness :
    (0 : ℚ) < sampleRisk.peak_bankroll ∧
    sampleRisk.should_halt_trading 8000 = true ∧
    sampleRisk.should_halt_trading 8001 = false := by
  refine ⟨by norm_num [sampleRisk], ?_, ?_⟩
  · exact ((c9_drawdown_halt sampleRisk 8000 (by norm_num [sampleRisk])).2
      rfl rfl).mpr (by norm_num)
  · have h := (c9_drawdown_halt sampleRisk 8001 (by norm_num [sampleRisk])).2 rfl rfl
    rcases hb : sampleRisk.should_halt_trading 8001 with _ | _
    · rfl
    · exact absurd (h.mp hb) (by norm_num)

/-- After settling with a nonzero closing line, the stored record
carries that closing line and the CLV formula. -/
theorem settle_closing_core (t : PaperTrader) (i : Nat) {b : Bet} {c : Int}
    (hfb : findBet t.bets i = some b) (ho : b.odds ≠ 0) (hc : c ≠ 0)
    (bet1 : Bet) (hid : bet1.id = b.id) :
    findBet (updateBet t.bets i (applyClosing bet1 b.odds (some c)).1) i =
      some { bet1 with
               closing_line := some c,
               clv := some (((odds_to_prob c - odds_to_prob b.odds) /
                 odds_to_prob b.odds) * 100) } := by
  have happ : (applyClosing bet1 b.odds (some c)).1 =
      { bet1 with
          closing_line := some c,
          clv := some (((odds_to_prob c - odds_to_prob b.odds) /
            odds_to_prob b.odds) * 100) } := by
    simp [applyClosing, hc, calculate_clv_eq c ho]
  rw [happ]
  exact findBet_updateBet (by simp [hid, findBet_id hfb]) hfb

/-- C6 (amended): settling a pending bet at nonzero entry odds with a
supplied nonzero closing line records that line on the bet and
attaches `clv = (closing_prob − entry_prob)/entry_prob × 100`, with
`odds_to_prob` the `100/(o+100)` / `|o|/(|o|+100)` probability map.
(A supplied closing line of `0` is treated like an absent one — see
the counterexample.) -/
theorem c6_clv_recording (t : PaperTrader) (i : Nat) (b : Bet) (r : String)
    (c : Int) (hfb : findBet t.bets i = some b)
    (hpend : b.status = "pending") (ho : b.odds ≠ 0) (hc : c ≠ 0)
    (hr : r = "win" ∨ r = "loss" ∨ r = "push") :
    (findBet (t.settle_bet i r (some c)).2.bets i).map Bet.closing_line =
      some (some c) ∧
    (findBet (t.settle_bet i r (some c)).2.bets i).map Bet.clv =
      some (some (((odds_to_prob c - odds_to_prob b.odds) /
        odds_to_prob b.odds) * 100)) := by
  rcases hr with hw | hl | hp2
  · subst hw
    simp only [PaperTrader.settle_bet, hfb, calculate_payout_eq b.stake ho]
    simp only [ne_eq, hpend]
    simp
    exact ⟨⟨_, settle_closing_core t i hfb ho hc _ rfl, rfl⟩,
           ⟨_, settle_closing_core t i hfb ho hc _ rfl, rfl⟩⟩
  · subst hl
    simp only [PaperTrader.settle_bet, hfb]
    simp only [ne_eq, hpend]
    simp
    exact ⟨⟨_, settle_closing_core t i hfb ho hc _ rfl, rfl⟩,
           ⟨_, settle_closing_core t i hfb ho hc _ rfl, rfl⟩⟩
  · subst hp2
    simp only [PaperTrader.settle_bet, hfb]
    simp only [ne_eq, hpend]
    simp
    exact ⟨⟨_, settle_closing_core t i hfb ho hc _ rfl, rfl⟩,
           ⟨_, settle_closing_core t i hfb ho hc _ rfl, rfl⟩⟩

/-- Counterexample for C6: a supplied closing line of `0` is falsy in
`if closing_line:`, so settling with closing odds `0` records nothing
and attaches no CLV. -/
theorem c6_counterexample :
    (samplePending.settle_bet 1 "loss" (some 0)).2.bets.map Bet.closing_line =
      [none] ∧
    (samplePending.settle_bet 1 "loss" (some 0)).2.bets.map Bet.clv = [none] := by
  decide

/-- Witness for C6 (amended): settling the sample bet (entry −110) as
a push with closing line −105 records the line and the CLV value. -/
theorem c6_clv_recording_witness :
    findBet samplePending.bets 1 = some sampleBet ∧
    sampleBet.status = "pending" ∧ sampleBet.odds ≠ 0 ∧ (-105 : Int) ≠ 0 ∧
    (findBet (samplePending.settle_bet 1 "push" (some (-105))).2.bets 1).map
        Bet.closing_line = some (some (-105)) ∧
    (findBet (samplePending.settle_bet 1 "push" (some (-105))).2.bets 1).map
        Bet.clv = some (some (((odds_to_prob (-105) - odds_to_prob sampleBet.odds) /
          odds_to_prob sampleBet.odds) * 100)) :=
  ⟨by decide, rfl, by decide, by decide,
    c6_clv_recording samplePending 1 sampleBet "push" (-105)
      (by decide) rfl (by decide) (by decide) (Or.inr (Or.inr rfl))⟩

/-! ## Arbitrage detector lemmas -/

/-- Closed form of the odds conversion at nonzero odds. -/
theorem american_to_decimal_eq {o : Int} (ho : o ≠ 0) :
    american_to_decimal o =
      some (if 0 < o then (o : ℚ) / 100 + 1 else 100 / (o.natAbs : ℚ) + 1) := by
  unfold american_to_decimal
  by_cases h : 0 < o
  · rw [if_pos h, if_pos h]
  · rw [if_neg h, if_neg (by simpa [Int.natAbs_eq_zero] using ho), if_neg h]

/-- Any decimal the conversion produces is positive. -/
theorem american_to_decimal_pos {o : Int} {d : ℚ}
    (h : american_to_decimal o = some d) : 0 < d := by
  unfold american_to_decimal at h
  split at h
  · next ho =>
    injection h with h2
    subst h2
    have hq : (0 : ℚ) < (o : ℚ) := by exact_mod_cast ho
    have := div_pos hq (by norm_num : (0 : ℚ) < 100)
    linarith
  · split at h
    · exact absurd h (by simp)
    · next hno =>
      injection h with h2
      subst h2
      have hq : (0 : ℚ) < (o.natAbs : ℚ) := by
        exact_mod_cast Nat.pos_of_ne_zero hno
      have := div_pos (by norm_num : (0 : ℚ) < 100) hq
      linarith

/-- Nonzero odds never make `_calculate_arbitrage` raise. -/
theorem calculate_arbitrage_isSome {o1 o2 : Int} (h1 : o1 ≠ 0) (h2 : o2 ≠ 0) :
    (calculate_arbitrage o1 o2).isSome = true := by
  unfold calculate_arbitrage
  rw [american_to_decimal_eq h1, american_to_decimal_eq h2]
  rfl

/-- Nonzero odds never make `_calculate_bet_sizes` raise. -/
theorem calculate_bet_sizes_isSome {o1 o2 : Int} (h1 : o1 ≠ 0) (h2 : o2 ≠ 0)
    (T : ℚ) : (calculate_bet_sizes o1 o2 T).isSome = true := by
  unfold calculate_bet_sizes
  rw [american_to_decimal_eq h1, american_to_decimal_eq h2]
  rfl

/-- The moneyline path never raises: the truthiness guard on the best
odds keeps zero odds away from the division. -/
theorem check_ml_never_raises (strat : ArbitrageStrategy) (game : Game)
    (odds : GameOdds) :
    (check_moneyline_arbitrage strat game odds).isSome = true := by
  simp only [check_moneyline_arbitrage]
  split
  · next oh oa bh ba =>
    by_cases hcond : oh ≠ 0 ∧ oa ≠ 0
    · rw [if_pos hcond]
      cases harb : calculate_arbitrage oh oa with
      | none =>
        have hsome := calculate_arbitrage_isSome hcond.1 hcond.2
        rw [harb] at hsome
        exact absurd hsome (by simp)
      | some arb =>
        dsimp only
        split
        · cases hbs : calculate_bet_sizes oh oa 100 with
          | none =>
            have hsome := calculate_bet_sizes_isSome hcond.1 hcond.2 100
            rw [hbs] at hsome
            exact absurd hsome (by simp)
          | some sizes =>
            dsimp only
            rfl
        · rfl
    · rw [if_neg hcond]
      rfl
  · rfl

/-- A zero price on either side makes `_calculate_arbitrage` raise
(`_american_to_decimal` divides by `abs(0)`). -/
theorem calculate_arbitrage_zero (o1 o2 : Int) (h : o1 = 0 ∨ o2 = 0) :
    calculate_arbitrage o1 o2 = none := by
  have h0 : american_to_decimal 0 = none := by simp [american_to_decimal]
  unfold calculate_arbitrage
  rcases h with h | h
  · subst h
    rw [h0]
  · subst h
    rw [h0]
    cases american_to_decimal o1 <;> rfl

/-- A spread point group holding both sides with a zero price on
either side makes the spread check raise. -/
theorem checkSpreadGroups_zero (strat : ArbitrageStrategy) (game : Game)
    (g : SpreadGroup) (gs : List SpreadGroup) {hs as : SideBest}
    (hh : g.home = some hs) (ha : g.away = some as)
    (h0 : hs.odds = 0 ∨ as.odds = 0) :
    checkSpreadGroups strat game (g :: gs) = none := by
  simp only [checkSpreadGroups, hh, ha, calculate_arbitrage_zero hs.odds as.odds h0]

/-- A totals point group holding both sides with a zero price on
either side makes the totals check raise. -/
theorem checkTotalsGroups_zero (strat : ArbitrageStrategy) (game : Game)
    (g : TotalsGroup) (gs : List TotalsGroup) {ov un : TotalsSide}
    (ho : lookupSide "over" g.sides = some ov)
    (hu : lookupSide "under" g.sides = some un)
    (h0 : ov.odds = 0 ∨ un.odds = 0) :
    checkTotalsGroups strat game (g :: gs) = none := by
  simp only [checkTotalsGroups, ho, hu, calculate_arbitrage_zero ov.odds un.odds h0]

/-- Every opportunity a successful moneyline check reports meets the
margin threshold. -/
theorem check_ml_margin {strat : ArbitrageStrategy} {game : Game}
    {odds : GameOdds} {l : List Opportunity}
    (h : check_moneyline_arbitrage strat game odds = some l) :
    ∀ opp ∈ l, strat.min_profit_margin ≤ opp.profit_margin := by
  simp only [check_moneyline_arbitrage] at h
  split at h
  · next oh oa bh ba =>
    split at h
    · split at h
      · exact absurd h (by simp)
      · next arb =>
        split at h
        · next hguard =>
          split at h
          · exact absurd h (by simp)
          · next sizes =>
            injection h with h2
            subst h2
            intro opp hm
            simp only [List.mem_singleton] at hm
            subst hm
            exact hguard.2
        · injection h with h2
          subst h2
          intro opp hm
          simp at hm
    · injection h with h2
      subst h2
      intro opp hm
      simp at hm
  · injection h with h2
    subst h2
    intro opp hm
    simp at hm

/-- Every opportunity a successful spread check reports meets the
margin threshold. -/
theorem checkSpreadGroups_margin {strat : ArbitrageStrategy} {game : Game} :
    ∀ {gs : List SpreadGroup} {l : List Opportunity},
      checkSpreadGroups strat game gs = some l →
      ∀ opp ∈ l, strat.min_profit_margin ≤ opp.profit_margin := by
  intro gs
  induction gs with
  | nil =>
    intro l h opp hm
    simp only [checkSpreadGroups] at h
    injection h with h2
    subst h2
    simp at hm
  | cons g gs ih =>
    intro l h opp hm
    simp only [checkSpreadGroups] at h
    split at h
    · next hside aside =>
      split at h
      · exact absurd h (by simp)
      · next arb =>
        split at h
        · next hguard =>
          split at h
          · exact absurd h (by simp)
          · next sizes =>
            split at h
            · exact absurd h (by simp)
            · next rest hrest =>
              injection h with h2
              subst h2
              rcases List.mem_cons.mp hm with hm2 | hm2
              · subst hm2
                exact hguard.2
              · exact ih hrest opp hm2
        · exact ih h opp hm
    · exact ih h opp hm

/-- Every opportunity a successful totals check reports meets the
margin threshold. -/
theorem checkTotalsGroups_margin {strat : ArbitrageStrategy} {game : Game} :
    ∀ {gs : List TotalsGroup} {l : List Opportunity},
      checkTotalsGroups strat game gs = some l →
      ∀ opp ∈ l, strat.min_profit_margin ≤ opp.profit_margin := by
  intro gs
  induction gs with
  | nil =>
    intro l h opp hm
    simp only [checkTotalsGroups] at h
    injection h with h2
    subst h2
    simp at hm
  | cons g gs ih =>
    intro l h opp hm
    simp only [checkTotalsGroups] at h
    split at h
    · next ov un =>
      split at h
      · exact absurd h (by simp)
      · next arb =>
        split at h
        · next hguard =>
          split at h
          · exact absurd h (by simp)
          · next sizes =>
            split at h
            · exact absurd h (by simp)
            · next rest hrest =>
              injection h with h2
              subst h2
              rcases List.mem_cons.mp hm with hm2 | hm2
              · subst hm2
                exact hguard.2
              · exact ih hrest opp hm2
        · exact ih h opp hm
    · exact ih h opp hm

/-- Counterexample for C4: with one book quoting +105 on both
moneyline sides, `find_arbitrage` reports an opportunity whose two
legs are at that same book. -/
theorem c4_counterexample :
    find_arbitrage sampleStrategy sampleGame sameBookOdds = some [c4opp] ∧
    c4opp.leg1.bookmaker = c4opp.leg2.bookmaker := by
  constructor
  · simp [find_arbitrage, check_moneyline_arbitrage, check_spread_arbitrage,
      check_totals_arbitrage, scanBookmakersML, scanOutcomesML, better,
      calculate_arbitrage, american_to_decimal, calculate_bet_sizes, round2,
      roundHalfEven, round_eq, scanSpreads, checkSpreadGroups, scanTotals,
      checkTotalsGroups, sameBookOdds, sampleGame, sampleStrategy, c4opp]
    norm_num
  · rfl

/-- C4 (amended): the detector filters a best-odds pair only by the
minimum profit margin — every opportunity `find_arbitrage` reports
meets the margin threshold, but no same-book comparison is made, so
both legs may sit at one book (see the counterexample). -/
theorem c4_margin_filter_only (strat : ArbitrageStrategy) (game : Game)
    (odds : GameOdds) (l : List Opportunity) (opp : Opportunity)
    (hfind : find_arbitrage strat game odds = some l) (hmem : opp ∈ l) :
    strat.min_profit_margin ≤ opp.profit_margin := by
  unfold find_arbitrage at hfind
  cases hml : check_moneyline_arbitrage strat game odds with
  | none =>
    rw [hml] at hfind
    exact absurd hfind (by simp)
  | some ml =>
    rw [hml] at hfind
    cases hsp : check_spread_arbitrage strat game odds with
    | none =>
      rw [hsp] at hfind
      exact absurd hfind (by simp)
    | some sp =>
      rw [hsp] at hfind
      cases htot : check_totals_arbitrage strat game odds with
      | none =>
        rw [htot] at hfind
        exact absurd hfind (by simp)
      | some tot =>
        rw [htot] at hfind
        injection hfind with h2
        subst h2
        unfold check_spread_arbitrage at hsp
        unfold check_totals_arbitrage at htot
        rcases List.mem_append.mp hmem with hm | hm
        · rcases List.mem_append.mp hm with hm2 | hm2
          · exact check_ml_margin hml opp hm2
          · exact checkSpreadGroups_margin hsp opp hm2
        · exact checkTotalsGroups_margin htot opp hm

/-- Witness for C4 (amended) at the same-book input: the reported
opportunity meets the 1% margin threshold. -/
theorem c4_margin_filter_only_witness :
    find_arbitrage sampleStrategy sampleGame sameBookOdds = some [c4opp] ∧
    c4opp ∈ [c4opp] ∧
    sampleStrategy.min_profit_margin ≤ c4opp.profit_margin := by
  have hfind : find_arbitrage sampleStrategy sampleGame sameBookOdds =
      some [c4opp] := by
    simp [find_arbitrage, check_moneyline_arbitrage, check_spread_arbitrage,
      check_totals_arbitrage, scanBookmakersML, scanOutcomesML, better,
      calculate_arbitrage, american_to_decimal, calculate_bet_sizes, round2,
      roundHalfEven, round_eq, scanSpreads, checkSpreadGroups, scanTotals,
      checkTotalsGroups, sameBookOdds, sampleGame, sampleStrategy, c4opp]
    norm_num
  exact ⟨hfind, List.mem_singleton_self _,
    c4_margin_filter_only sampleStrategy sampleGame sameBookOdds [c4opp] c4opp
      hfind (List.mem_singleton_self _)⟩

/-- Counterexample for C5: a spread market with a price of `0` grouped
against a priced opposite side makes `find_arbitrage` raise
(`ZeroDivisionError` in `_american_to_decimal`) instead of skipping
the market. -/
theorem c5_counterexample :
    find_arbitrage sampleStrategy sampleGame zeroSpreadOdds = none := by
  simp [find_arbitrage, check_moneyline_arbitrage, check_spread_arbitrage,
    check_totals_arbitrage, scanBookmakersML, scanOutcomesML, better,
    calculate_arbitrage, american_to_decimal, calculate_bet_sizes,
    scanSpreads, scanSpreadOuts, updGroups, updSpreadOutcome,
    checkSpreadGroups, scanTotals, checkTotalsGroups, zeroSpreadOdds,
    sampleGame, sampleStrategy]

/-- C5 (amended): only the moneyline path is protected from zero
prices (by the Python truthiness guard on the best odds); in the
spread and totals paths alike, a point group holding both sides with a
zero price on either side raises a division-by-zero, and the error
propagates out of `find_arbitrage` (shown on a zero-priced spread and
a zero-priced totals market). -/
theorem c5_zero_odds_guard :
    (∀ (strat : ArbitrageStrategy) (game : Game) (odds : GameOdds),
        (check_moneyline_arbitrage strat game odds).isSome = true) ∧
    (∀ (strat : ArbitrageStrategy) (game : Game) (g : SpreadGroup)
        (gs : List SpreadGroup) (hs as : SideBest),
        g.home = some hs → g.away = some as → hs.odds = 0 ∨ as.odds = 0 →
        checkSpreadGroups strat game (g :: gs) = none) ∧
    (∀ (strat : ArbitrageStrategy) (game : Game) (g : TotalsGroup)
        (gs : List TotalsGroup) (ov un : TotalsSide),
        lookupSide "over" g.sides = some ov →
        lookupSide "under" g.sides = some un →
        ov.odds = 0 ∨ un.odds = 0 →
        checkTotalsGroups strat game (g :: gs) = none) ∧
    find_arbitrage sampleStrategy sampleGame zeroSpreadOdds = none ∧
    find_arbitrage sampleStrategy sampleGame zeroTotalsOdds = none := by
  refine ⟨check_ml_never_raises, ?_, ?_, ?_, ?_⟩
  · intro strat game g gs hs as hh ha h0
    exact checkSpreadGroups_zero strat game g gs hh ha h0
  · intro strat game g gs ov un ho hu h0
    exact checkTotalsGroups_zero strat game g gs ho hu h0
  · simp [find_arbitrage, check_moneyline_arbitrage, check_spread_arbitrage,
      check_totals_arbitrage, scanBookmakersML, scanOutcomesML, better,
      calculate_arbitrage, american_to_decimal, calculate_bet_sizes,
      scanSpreads, scanSpreadOuts, updGroups, updSpreadOutcome,
      checkSpreadGroups, scanTotals, checkTotalsGroups, zeroSpreadOdds,
      sampleGame, sampleStrategy]
  · simp [find_arbitrage, check_moneyline_arbitrage, check_spread_arbitrage,
      check_totals_arbitrage, scanBookmakersML, scanOutcomesML, better,
      calculate_arbitrage, american_to_decimal, calculate_bet_sizes,
      scanSpreads, checkSpreadGroups, scanTotals, scanTotalsOuts,
      updTotalsGroups, updSides, lookupSide, strLower, checkTotalsGroups,
      zeroTotalsOdds, sampleGame, sampleStrategy]

/-- Witness for C5 (amended): the moneyline guard at a concrete input,
a raising spread group with the zero on the home side, and a raising
totals group with the zero on the under side. -/
theorem c5_zero_odds_guard_witness :
    (check_moneyline_arbitrage sampleStrategy sampleGame sameBookOdds).isSome =
      true ∧
    checkSpreadGroups sampleStrategy sampleGame
      [{ point := 0, home := some ⟨0, "BookX", "Lakers"⟩,
         away := some ⟨-110, "BookX", "Celtics"⟩ }] = none ∧
    checkTotalsGroups sampleStrategy sampleGame
      [{ point := 210, sides := [("over", ⟨-110, "BookX"⟩),
                                 ("under", ⟨0, "BookX"⟩)] }] = none :=
  ⟨c5_zero_odds_guard.1 sampleStrategy sampleGame sameBookOdds,
   c5_zero_odds_guard.2.1 sampleStrategy sampleGame
     { point := 0, home := some ⟨0, "BookX", "Lakers"⟩,
       away := some ⟨-110, "BookX", "Celtics"⟩ } []
     ⟨0, "BookX", "Lakers"⟩ ⟨-110, "BookX", "Celtics"⟩ rfl rfl (Or.inl rfl),
   c5_zero_odds_guard.2.2.1 sampleStrategy sampleGame
     { point := 210, sides := [("over", ⟨-110, "BookX"⟩),
                               ("under", ⟨0, "BookX"⟩)] } []
     ⟨-110, "BookX"⟩ ⟨0, "BookX"⟩ rfl rfl (Or.inr rfl)⟩

/-- C8 (amended): the detector's pre-rounding stake split
`stake1 = T/(1 + d1/d2)`, `stake2 = T − stake1` equals
`T·p_i/(p1+p2)` exactly, sums to `T`, and equalizes the payout
`d_i·stake_i` across the legs; the returned sizes are these stakes
rounded to cents (see the counterexample for the rounding loss). -/
theorem c8_stake_split (o1 o2 : Int) (T d1 d2 : ℚ)
    (h1 : american_to_decimal o1 = some d1)
    (h2 : american_to_decimal o2 = some d2) (hT : 0 < T) :
    T / (1 + d1 / d2) = T * ((1 / d1) / (1 / d1 + 1 / d2)) ∧
    T - T / (1 + d1 / d2) = T * ((1 / d2) / (1 / d1 + 1 / d2)) ∧
    T / (1 + d1 / d2) + (T - T / (1 + d1 / d2)) = T ∧
    d1 * (T / (1 + d1 / d2)) = d2 * (T - T / (1 + d1 / d2)) ∧
    calculate_bet_sizes o1 o2 T =
      some { bet1 := round2 (T / (1 + d1 / d2)),
             bet2 := round2 (T - T / (1 + d1 / d2)) } := by
  have hd1 := american_to_decimal_pos h1
  have hd2 := american_to_decimal_pos h2
  have hden : 0 < 1 + d1 / d2 := by positivity
  have hp : 0 < 1 / d1 + 1 / d2 := by positivity
  refine ⟨?_, ?_, by ring, ?_, ?_⟩
  · field_simp
    try ring
  · field_simp
    try ring
  · field_simp
    try ring
  · unfold calculate_bet_sizes
    rw [h1, h2]

/-- Counterexample for C8: at odds +200/−200 (decimals 3 and 3/2) and
total stake 100 the returned sizes are the rounded 33.33/66.67, which
differ from the exact split 100/3 and no longer equalize the payouts
(99.99 vs 100.005). -/
theorem c8_counterexample :
    american_to_decimal 200 = some 3 ∧
    american_to_decimal (-200) = some (3 / 2) ∧
    calculate_bet_sizes 200 (-200) 100 =
      some { bet1 := 3333 / 100, bet2 := 6667 / 100 } ∧
    (3333 / 100 : ℚ) ≠ 100 * ((1 / 3) / (1 / 3 + 1 / (3 / 2))) ∧
    (3 : ℚ) * (3333 / 100) ≠ (3 / 2) * (6667 / 100) := by
  refine ⟨?_, ?_, ?_, by norm_num, by norm_num⟩
  · norm_num [american_to_decimal]
  · norm_num [american_to_decimal]
  · norm_num [calculate_bet_sizes, american_to_decimal, round2,
      roundHalfEven, round_eq]

/-- Witness for C8 (amended) at odds +105/+105 and stake 100: the
exact split is 50/50 and both payout sides agree. -/
theorem c8_stake_split_witness :
    american_to_decimal 105 = some (41 / 20) ∧
    american_to_decimal 105 = some (41 / 20) ∧ (0 : ℚ) < 100 ∧
    ((100 : ℚ) / (1 + (41 / 20) / (41 / 20)) =
        100 * ((1 / (41 / 20)) / (1 / (41 / 20) + 1 / (41 / 20))) ∧
      (100 : ℚ) - 100 / (1 + (41 / 20) / (41 / 20)) =
        100 * ((1 / (41 / 20)) / (1 / (41 / 20) + 1 / (41 / 20))) ∧
      (100 : ℚ) / (1 + (41 / 20) / (41 / 20)) +
          (100 - 100 / (1 + (41 / 20) / (41 / 20))) = 100 ∧
      (41 / 20 : ℚ) * (100 / (1 + (41 / 20) / (41 / 20))) =
        (41 / 20) * (100 - 100 / (1 + (41 / 20) / (41 / 20))) ∧
      calculate_bet_sizes 105 105 100 =
        some { bet1 := round2 (100 / (1 + (41 / 20) / (41 / 20))),
               bet2 := round2 (100 - 100 / (1 + (41 / 20) / (41 / 20))) }) := by
  have ha : american_to_decimal 105 = some (41 / 20) := by
    norm_num [american_to_decimal]
  exact ⟨ha, ha, by norm_num,
    c8_stake_split 105 105 100 (41 / 20) (41 / 20) ha ha (by norm_num)⟩

end SportBettingBot
